import Mathlib

/-!
# Verification of the gh_artifacts deployment tool

Shallow embedding of `tools/github_deployment/gh_artifacts.py` and proofs about
its distribution-reconciliation, assignment, status and artifact-location logic.

Modelling conventions:
* HTTP interactions are modelled as oracle functions supplied in an environment
  record; a `netError` constructor stands for a raised
  `requests.exceptions.RequestException` caught at the call site.
* Python `float` values arising in this program are always non-negative decimals
  produced by parsing digit/dot strings; they are modelled exactly by the `Dec`
  structure (value `num / 10 ^ exp`), with a rational-number valuation `Dec.val`
  used in specifications.  All operations the program performs on these values
  (comparison, equality, `+ 1.0`, one-decimal formatting) are implemented on
  `Dec` and proved correct against the valuation.
* JSON response bodies are modelled at the parsed-value level (structures with
  optional fields mirroring `dict.get` defaults).
-/

/-- Numeric value of a big-endian list of ASCII digit characters, as produced by
Python `float`/`int` parsing of a digit string. -/
def digitsVal (cs : List Char) : Nat :=
  cs.foldl (fun a c => 10 * a + (c.toNat - 48)) 0

/-- Model of Python `s.replace('.', '')`. -/
def removeDots (s : String) : String :=
  String.mk (s.data.filter (fun c => c != '.'))

/-- Model of Python `str.isdigit` (restricted to ASCII digit strings): true iff
the string is non-empty and every character is a digit. -/
def pyIsdigit (s : String) : Bool :=
  !s.data.isEmpty && s.data.all Char.isDigit

/-- Number of `'.'` characters in a string. -/
def dotCount (s : String) : Nat :=
  s.data.countP (fun c => c == '.')

/-- An exact non-negative decimal number `num / 10 ^ exp`.  This represents the
Python floats manipulated by the version-selection logic (all of which are
parsed from digit/dot strings and hence non-negative decimals). -/
structure Dec where
  num : Nat
  exp : Nat
deriving DecidableEq

/-- Rational value of a `Dec`. -/
def Dec.val (d : Dec) : ℚ := (d.num : ℚ) / 10 ^ d.exp

/-- Value-level strict comparison of two `Dec`s (Python `<` on floats). -/
def decValLt (a b : Dec) : Bool :=
  decide (a.num * 10 ^ b.exp < b.num * 10 ^ a.exp)

/-- Value-level equality of two `Dec`s (Python `==` on floats). -/
def decValEq (a b : Dec) : Bool :=
  decide (a.num * 10 ^ b.exp = b.num * 10 ^ a.exp)

/-- Python `x + 1.0` on a decimal value. -/
def decAddOne (d : Dec) : Dec := ⟨d.num + 10 ^ d.exp, d.exp⟩

/-- Larger of two decimals; on equal values keeps the first argument, matching
the behaviour of Python's stable descending sort / max scan. -/
def decMaxPy (a b : Dec) : Dec := if decValLt a b then b else a

/-- The float literal `0.0`. -/
def decZero : Dec := ⟨0, 1⟩

/-- Value of Python `float(s)` on a string made of digits and at most one dot:
integer part before the first dot, fractional part after it. -/
def decValue (s : String) : Dec :=
  let intPart := s.data.takeWhile (fun c => c != '.')
  let rest := s.data.dropWhile (fun c => c != '.')
  let fracPart := rest.drop 1
  ⟨digitsVal intPart * 10 ^ fracPart.length + digitsVal fracPart, fracPart.length⟩

/-- Model of `float(version_str) if str(version_str).replace('.', '').isdigit()`
succeeding: `some` iff the string passes the digit guard and `float` does not
raise, i.e. the string is made of digits and dots, has at least one digit and at
most one dot.  This is the spec-level notion of "parses as a non-negative
decimal". -/
def genuineParse (s : String) : Option Dec :=
  if pyIsdigit (removeDots s) then
    if dotCount s ≤ 1 then some (decValue s) else none
  else none

/-- Little-endian decimal digits of `n`, produced with explicit fuel so that the
definition is structurally recursive. -/
def natDigitsAux : Nat → Nat → List Char
  | 0, _ => []
  | _ + 1, 0 => []
  | fuel + 1, n + 1 => Nat.digitChar ((n + 1) % 10) :: natDigitsAux fuel ((n + 1) / 10)

/-- Decimal rendering of a natural number. -/
def natRepr (n : Nat) : String :=
  if n = 0 then "0" else String.mk (natDigitsAux n n).reverse

/-- Round-half-to-even of `10 * d.val`, computed exactly on the representation.
This is the integer printed by Python's `f"{x:.1f}"` (scaled by ten) for the
non-negative decimals occurring in this program. -/
def rhe10 (d : Dec) : Nat :=
  if 2 * ((10 * d.num) % 10 ^ d.exp) < 10 ^ d.exp then (10 * d.num) / 10 ^ d.exp
  else if 10 ^ d.exp < 2 * ((10 * d.num) % 10 ^ d.exp) then (10 * d.num) / 10 ^ d.exp + 1
  else if ((10 * d.num) / 10 ^ d.exp) % 2 = 0 then (10 * d.num) / 10 ^ d.exp
  else (10 * d.num) / 10 ^ d.exp + 1

/-- Model of Python `f"{x:.1f}"` for the non-negative decimals of this program:
the value rounded (half to even) to one decimal digit, rendered as
`<integer part>.<single decimal digit>`. -/
def fmt1 (d : Dec) : String :=
  natRepr (rhe10 d / 10) ++ "." ++ natRepr (rhe10 d % 10)

/-- A DistributionSet record as returned by the Hawkbit list endpoint: its `id`
and its `version` JSON field (absent field modelled as `none`, defaulted by the
code to `"0.0"` via `ds.get("version", "0.0")`). -/
structure DistEntry where
  id : Nat
  version? : Option String
deriving DecidableEq

/-- `ds.get("version", "0.0")`. -/
def versionStr (e : DistEntry) : String := e.version?.getD "0.0"

/-- Per-entry behaviour of the version-parsing loop body of
`find_existing_distribution`:
`some v` when the entry contributes value `v` to `versions`
(the genuinely parsed value when the digit guard holds and `float` succeeds,
or the `0.0` fallback when the guard fails), `none` when the `ValueError`
branch skips the entry (`continue`). -/
def entryOutcome (e : DistEntry) : Option Dec :=
  if pyIsdigit (removeDots (versionStr e)) then
    if dotCount (versionStr e) ≤ 1 then some (decValue (versionStr e)) else none
  else some decZero

/-- One iteration of the `for ds in all_ds` loop of
`find_existing_distribution`: the accumulator is
`(versions, latest_ds, latest_version)`. -/
def distStep (acc : List Dec × Option DistEntry × Dec) (ds : DistEntry) :
    List Dec × Option DistEntry × Dec :=
  match entryOutcome ds with
  | none => acc
  | some version =>
    if decValLt acc.2.2 version then (acc.1 ++ [version], some ds, version)
    else (acc.1 ++ [version], acc.2.1, acc.2.2)

/-- `sorted(versions, reverse=True)[0]` for a non-empty list: the maximum value,
realised by the first element attaining it (Python's sort is stable). -/
def listMaxPy : List Dec → Dec
  | [] => decZero
  | v :: vs => vs.foldl decMaxPy v

/-- The `while next_version in versions: next_version += 1.0` loop, with fuel
(one more than the list length suffices; the loop is in fact never entered
because the candidate already exceeds every element). -/
def bumpVersion (versions : List Dec) : Dec → Nat → Dec
  | next, 0 => next
  | next, fuel + 1 =>
    if versions.any (fun v => decValEq v next) then
      bumpVersion versions (decAddOne next) fuel
    else next

/-- `find_existing_distribution` (gh_artifacts.py lines 425-508).  The paginated
fetch of all DistributionSets with the requested name is modelled by the
`fetch` argument: `some all_ds` is the fully retrieved list, `none` is a
`requests.exceptions.RequestException` raised during the lookup (caught by the
function, which then returns `(None, "1.0")`). -/
def find_existing_distribution (fetch : Option (List DistEntry)) : Option Nat × String :=
  match fetch with
  | none => (none, "1.0")
  | some all_ds =>
    if all_ds.isEmpty then (none, "1.0")
    else
      let st := all_ds.foldl distStep ([], none, decZero)
      if st.1.isEmpty then (none, "1.0")
      else
        let next := bumpVersion st.1 (decAddOne (listMaxPy st.1)) (st.1.length + 1)
        match st.2.1 with
        | some ds => (some ds.id, fmt1 next)
        | none => (none, fmt1 next)

/-- The versions of the entries of `l` that genuinely parse as non-negative
decimals (the spec's set `V` of existing versions). -/
def genuineVersions (l : List DistEntry) : List Dec :=
  l.filterMap (fun e => genuineParse (versionStr e))

/-- A software-module record in the body of `GET .../assignedModules`
(`module.get("id")`). -/
structure ModuleRec where
  id? : Option Nat
deriving DecidableEq

/-- Response to `GET {dist_url}/{id}/assignedModules`: an HTTP response with
status and parsed JSON body, or a raised `RequestException`. -/
inductive ModulesResp where
  | resp (status : Nat) (modules : List ModuleRec)
  | netError
deriving DecidableEq

/-- One created-distribution record in the body of the create response
(`created_dists[0].get("id")`). -/
structure CreatedRec where
  id? : Option Nat
deriving DecidableEq

/-- Response to `POST {base_url}/rest/v1/distributionsets`: status plus parsed
JSON body (a list, as the code expects), or a raised `RequestException`. -/
inductive CreateResult where
  | resp (status : Nat) (body : List CreatedRec)
  | netError
deriving DecidableEq

/-- Response to the per-target `POST .../assignedDS` request. -/
inductive AssignResp where
  | resp (status : Nat)
  | netError
deriving DecidableEq

/-- A target record (`target["controllerId"]`). -/
structure TargetRec where
  controllerId : String
deriving DecidableEq

/-- Parsed JSON body of the target-list response
(`response.json().get("content", [])`). -/
structure TargetsPage where
  content? : Option (List TargetRec)
deriving DecidableEq

/-- The one request `get_all_targets` issues, with its `limit` query parameter. -/
structure TargetsRequest where
  limit : Nat
deriving DecidableEq

/-- Outcome of a modelled Python call: a returned value, or an uncaught
exception propagating out of the function. -/
inductive PyResult where
  | ok (b : Bool)
  | exn
deriving DecidableEq

/-- `get_all_targets` (gh_artifacts.py lines 226-240).  Issues a single request
with `params={"limit": 1000}` and no pagination; on a `RequestException`
returns the empty list.  Returns the target list together with the list of
requests issued. -/
def get_all_targets (server : TargetsRequest → Except String TargetsPage) :
    List TargetRec × List TargetsRequest :=
  let req : TargetsRequest := ⟨1000⟩
  match server req with
  | Except.ok page => (page.content?.getD [], [req])
  | Except.error _ => ([], [req])

/-- Loop body of `assign_distribution_to_targets`: counts a success exactly for
status `200` or `201` (`response.status_code in (200, 201)`); a non-2xx status
or a `RequestException` is logged and the loop continues.  The accumulator also
records the ids of the targets for which an assignment was attempted. -/
def assignStep (assignResp : Nat → String → AssignResp) (dist_id : Nat)
    (acc : Nat × List String) (t : TargetRec) : Nat × List String :=
  match assignResp dist_id t.controllerId with
  | AssignResp.resp st =>
    if st == 200 || st == 201 then (acc.1 + 1, acc.2 ++ [t.controllerId])
    else (acc.1, acc.2 ++ [t.controllerId])
  | AssignResp.netError => (acc.1, acc.2 ++ [t.controllerId])

/-- `assign_distribution_to_targets` (gh_artifacts.py lines 379-422).  Fetches
all targets; with no targets returns failure; otherwise attempts the
assignment on every target in order and succeeds iff `success_count` is not
zero.  Returns the boolean result and the ids of the targets attempted. -/
def assign_distribution_to_targets (server : TargetsRequest → Except String TargetsPage)
    (assignResp : Nat → String → AssignResp) (dist_id : Nat) : Bool × List String :=
  let targets := (get_all_targets server).1
  if targets.isEmpty then (false, [])
  else
    let r := targets.foldl (assignStep assignResp dist_id) (0, [])
    if r.1 == 0 then (false, r.2) else (true, r.2)

/-- Tail of the creation block of `create_or_update_distribution`
(gh_artifacts.py lines 590-613): `response.raise_for_status()` (4xx/5xx raises
and is caught, returning `False`), then body-shape checks, then the optional
assignment to all targets. -/
def afterCreateResponse (server : TargetsRequest → Except String TargetsPage)
    (assignResp : Nat → String → AssignResp) (st : Nat) (body : List CreatedRec)
    (assign_to_all : Bool) : PyResult :=
  if 400 ≤ st ∧ st < 600 then PyResult.ok false
  else
    match body with
    | [] => PyResult.ok false
    | first :: _ =>
      match first.id? with
      | none => PyResult.ok false
      | some dist_id =>
        if dist_id == 0 then PyResult.ok false
        else if assign_to_all then
          if (assign_distribution_to_targets server assignResp dist_id).1 then PyResult.ok true
          else PyResult.ok false
        else PyResult.ok true

/-- The creation section of `create_or_update_distribution` (gh_artifacts.py
lines 548-620): POST the new DistributionSet with version `next_version`; on a
409 conflict recompute the version as `float(version) + 1` formatted to one
decimal place and retry exactly once; then handle the final response.  Returns
the result together with the list of versions for which a create request was
issued.  A failing `float` conversion would be an uncaught `ValueError`
(`PyResult.exn`); it cannot occur for the version strings produced by
`find_existing_distribution`. -/
def createNewDistribution (createResp : String → CreateResult)
    (server : TargetsRequest → Except String TargetsPage)
    (assignResp : Nat → String → AssignResp) (assign_to_all : Bool)
    (next_version : String) : PyResult × List String :=
  match createResp next_version with
  | CreateResult.netError => (PyResult.ok false, [next_version])
  | CreateResult.resp st body =>
    if st == 409 then
      match genuineParse next_version with
      | none => (PyResult.exn, [next_version])
      | some current_version =>
        let retry_version := fmt1 (decAddOne current_version)
        match createResp retry_version with
        | CreateResult.netError => (PyResult.ok false, [next_version, retry_version])
        | CreateResult.resp st2 body2 =>
          (afterCreateResponse server assignResp st2 body2 assign_to_all,
            [next_version, retry_version])
    else (afterCreateResponse server assignResp st body assign_to_all, [next_version])

/-- Python truthiness of the `Optional[int]` distribution id: `None` and `0`
are falsy. -/
def pyTruthyOptNat : Option Nat → Bool
  | none => false
  | some n => !(n == 0)

/-- The Hawkbit server as seen by one `create_or_update_distribution` run:
responses of the four endpoints it touches. -/
structure HawkbitEnv where
  lookup : Option (List DistEntry)
  modulesOf : Nat → ModulesResp
  createResp : String → CreateResult
  targetsServer : TargetsRequest → Except String TargetsPage
  assignResp : Nat → String → AssignResp

/-- `create_or_update_distribution` (gh_artifacts.py lines 511-620).  Looks up
the existing distributions, and if a (truthy) existing id was returned checks
its assigned modules: if the module is already attached, no create request is
issued and the run proceeds directly to the optional assignment.  Otherwise a
new DistributionSet is created via `createNewDistribution`.  Returns the
result together with the versions for which create requests were issued. -/
def create_or_update_distribution (env : HawkbitEnv) (module_id : Nat)
    (assign_to_all : Bool) : PyResult × List String :=
  let fr := find_existing_distribution env.lookup
  if pyTruthyOptNat fr.1 then
    match env.modulesOf (fr.1.getD 0) with
    | ModulesResp.resp mst modules =>
      if mst == 200 && modules.any (fun mo => mo.id? == some module_id) then
        if assign_to_all
            && !(assign_distribution_to_targets env.targetsServer env.assignResp
                  (fr.1.getD 0)).1 then
          (PyResult.ok false, [])
        else (PyResult.ok true, [])
      else
        createNewDistribution env.createResp env.targetsServer env.assignResp
          assign_to_all fr.2
    | ModulesResp.netError =>
      createNewDistribution env.createResp env.targetsServer env.assignResp
        assign_to_all fr.2
  else
    createNewDistribution env.createResp env.targetsServer env.assignResp
      assign_to_all fr.2

/-- Parsed JSON body of the main target response in `get_target_status`, with
the fields and hypermedia links the code reads. -/
structure TargetData where
  controllerId? : Option String
  name? : Option String
  description? : Option String
  updateStatus? : Option String
  installedDSHref? : Option String
  assignedDSHref? : Option String
deriving DecidableEq

/-- Parsed JSON body of a followed DistributionSet link. -/
structure DSData where
  name? : Option String
  version? : Option String
deriving DecidableEq

/-- An HTTP GET modelled at the parsed-JSON level: a status with a body, or a
raised `RequestException` carrying its message. -/
inductive HttpGet (α : Type) where
  | resp (status : Nat) (data : α)
  | netError (msg : String)

/-- The server as seen by one `get_target_status` call: the main target
response and the responses of followed `href` links. -/
structure StatusEnv where
  targetResp : HttpGet TargetData
  linkResp : String → HttpGet DSData

/-- The record `get_target_status` builds; all eight fields are always
present. -/
structure TargetStatus where
  controllerId : String
  name : String
  description : String
  updateStatus : String
  installedVersion : String
  assignedVersion : String
  installedDistribution : String
  assignedDistribution : String
deriving DecidableEq

/-- The error record returned when the main target request fails
(gh_artifacts.py lines 315-326); `msg` is `str(e)`. -/
def errorStatus (target_id : String) (msg : String) : TargetStatus :=
  { controllerId := target_id
    name := "Error"
    description := msg
    updateStatus := "error"
    installedVersion := "N/A"
    assignedVersion := "N/A"
    installedDistribution := "N/A"
    assignedDistribution := "N/A" }

/-- Exception text of the `requests.HTTPError` raised by `raise_for_status`;
its exact content is irrelevant to the claims. -/
def httpErrorText (st : Nat) : String := "HTTP error " ++ natRepr st

/-- `get_target_status` (gh_artifacts.py lines 243-326).  On transport failure
or an HTTP error status of the main request it returns the error record;
otherwise it builds the status from the target data, following the
`installedDS` and `assignedDS` links when present (an exact 200 is required
for a link response to be used; link failures are swallowed). -/
def get_target_status (target_id : String) (env : StatusEnv) : TargetStatus :=
  match env.targetResp with
  | HttpGet.netError msg => errorStatus target_id msg
  | HttpGet.resp st data =>
    if 400 ≤ st ∧ st < 600 then errorStatus target_id (httpErrorText st)
    else
      let base : TargetStatus :=
        { controllerId := data.controllerId?.getD "unknown"
          name := data.name?.getD "N/A"
          description := data.description?.getD "N/A"
          updateStatus := data.updateStatus?.getD "unknown"
          installedVersion := "N/A"
          assignedVersion := "N/A"
          installedDistribution := "N/A"
          assignedDistribution := "N/A" }
      let s1 :=
        match data.installedDSHref? with
        | none => base
        | some href =>
          match env.linkResp href with
          | HttpGet.resp lst ds =>
            if lst == 200 then
              { base with
                  installedDistribution := ds.name?.getD "N/A"
                  installedVersion := ds.version?.getD "N/A" }
            else base
          | HttpGet.netError _ => base
      let s2 :=
        match data.assignedDSHref? with
        | none => s1
        | some href =>
          match env.linkResp href with
          | HttpGet.resp lst ds =>
            if lst == 200 then
              { s1 with
                  assignedDistribution := ds.name?.getD "N/A"
                  assignedVersion := ds.version?.getD "N/A" }
            else s1
          | HttpGet.netError _ => s1
      s2

/-- Does the main target request fail (transport error, or a status that makes
`raise_for_status` raise)? -/
def mainRequestFails : HttpGet TargetData → Bool
  | HttpGet.netError _ => true
  | HttpGet.resp st _ => decide (400 ≤ st) && decide (st < 600)

/-- The exception message of a failing main target request. -/
def failMessage : HttpGet TargetData → String
  | HttpGet.netError msg => msg
  | HttpGet.resp st _ => httpErrorText st

/-- Error kinds of the bundle-locating step: the `FileNotFoundError` the code
raises, as distinguished from any other I/O error. -/
inductive FsError where
  | notFound
  | ioError (msg : String)
deriving DecidableEq

/-- `os.path.join(root, "rootfs.raucb")` for the paths produced by `os.walk`. -/
def pathJoin (root name : String) : String := root ++ "/" ++ name

/-- `find_raucb_file` (gh_artifacts.py lines 218-223), over the sequence of
`(root, files)` pairs yielded by `os.walk(directory)` in top-down traversal
order: the first directory whose file list contains `rootfs.raucb` wins; if
none does, `FileNotFoundError` is raised. -/
def find_raucb_file : List (String × List String) → Except FsError String
  | [] => Except.error FsError.notFound
  | (root, files) :: rest =>
    if "rootfs.raucb" ∈ files then Except.ok (pathJoin root "rootfs.raucb")
    else find_raucb_file rest

/-! ## Spec-side predicates and concrete test environments -/

/-- Spec-side predicate: the entry's version either does not parse or parses
strictly below `d` (used to say `d` is the unique maximum). -/
def strictlyBelow (d : Dec) (e : DistEntry) : Bool :=
  match genuineParse (versionStr e) with
  | none => true
  | some d' => decValLt d' d

/-- Spec-side notion of an HTTP success status (any 2xx), as used by the
claim's definition of a successful assignment. -/
def is2xxStatus (st : Nat) : Bool := decide (200 <= st) && decide (st < 300)

/-- Environment in which both create attempts answer 409. -/
def envC2 : HawkbitEnv :=
  { lookup := some []
    modulesOf := fun _ => ModulesResp.netError
    createResp := fun _ => CreateResult.resp 409 []
    targetsServer := fun _ => Except.error "unreachable"
    assignResp := fun _ _ => AssignResp.netError }

/-- Environment with a single DistributionSet of version "0.0" (id 5) that
already carries module 9. -/
def envC3 : HawkbitEnv :=
  { lookup := some [⟨5, some "0.0"⟩]
    modulesOf := fun i => if i == 5 then ModulesResp.resp 200 [⟨some 9⟩] else ModulesResp.netError
    createResp := fun _ => CreateResult.resp 201 [⟨some 42⟩]
    targetsServer := fun _ => Except.ok ⟨some []⟩
    assignResp := fun _ _ => AssignResp.netError }

/-- Environment with a single DistributionSet of version "2.0" (id 5) that
already carries module 9. -/
def envC3w : HawkbitEnv :=
  { lookup := some [⟨5, some "2.0"⟩]
    modulesOf := fun i => if i == 5 then ModulesResp.resp 200 [⟨some 9⟩] else ModulesResp.netError
    createResp := fun _ => CreateResult.resp 201 [⟨some 42⟩]
    targetsServer := fun _ => Except.error "down"
    assignResp := fun _ _ => AssignResp.netError }

/-- Environment whose distribution lookup fails with a network error and whose
create endpoint succeeds. -/
def envC7 : HawkbitEnv :=
  { lookup := none
    modulesOf := fun _ => ModulesResp.netError
    createResp := fun _ => CreateResult.resp 201 [⟨some 42⟩]
    targetsServer := fun _ => Except.error "network down"
    assignResp := fun _ _ => AssignResp.netError }

/-- A target server exposing exactly one target, `t1`. -/
def serverC4 : TargetsRequest → Except String TargetsPage :=
  fun _ => Except.ok ⟨some [⟨"t1"⟩]⟩

/-- Assignment responses that always answer HTTP 204 (a 2xx status that is not
200/201). -/
def assignRespC4 : Nat → String → AssignResp := fun _ _ => AssignResp.resp 204

/-- A status environment whose main target request fails with a transport
error. -/
def envC9 : StatusEnv :=
  { targetResp := HttpGet.netError "connection refused"
    linkResp := fun _ => HttpGet.netError "x" }

/-! ## Valuation lemmas for `Dec` -/

lemma Dec.val_nonneg (d : Dec) : 0 ≤ d.val := by
  unfold Dec.val; positivity

lemma decZero_val : decZero.val = 0 := by
  simp [decZero, Dec.val]

lemma decValLt_iff (a b : Dec) : decValLt a b = true ↔ a.val < b.val := by
  have ha : (0 : ℚ) < 10 ^ a.exp := by positivity
  have hb : (0 : ℚ) < 10 ^ b.exp := by positivity
  rw [decValLt, decide_eq_true_eq, Dec.val, Dec.val, div_lt_div_iff₀ ha hb]
  constructor
  · intro h; exact_mod_cast h
  · intro h; exact_mod_cast h

lemma decValEq_iff (a b : Dec) : decValEq a b = true ↔ a.val = b.val := by
  have ha : (0 : ℚ) < 10 ^ a.exp := by positivity
  have hb : (0 : ℚ) < 10 ^ b.exp := by positivity
  rw [decValEq, decide_eq_true_eq, Dec.val, Dec.val, div_eq_div_iff ha.ne' hb.ne']
  constructor
  · intro h; exact_mod_cast h
  · intro h; exact_mod_cast h

lemma decAddOne_val (d : Dec) : (decAddOne d).val = d.val + 1 := by
  have h : (0 : ℚ) < 10 ^ d.exp := by positivity
  unfold decAddOne Dec.val
  push_cast
  field_simp

lemma decMaxPy_val (a b : Dec) : (decMaxPy a b).val = max a.val b.val := by
  unfold decMaxPy
  by_cases h : decValLt a b = true
  · rw [if_pos h, max_eq_right ((decValLt_iff a b).mp h).le]
  · have h' : ¬ a.val < b.val := fun hc => h ((decValLt_iff a b).mpr hc)
    rw [if_neg h, max_eq_left (le_of_not_lt h')]

lemma foldl_decMaxPy_val (l : List Dec) (a : Dec) :
    (l.foldl decMaxPy a).val = l.foldl (fun m v => max m v.val) a.val := by
  induction l generalizing a with
  | nil => rfl
  | cons v vs ih =>
    simp only [List.foldl_cons]
    rw [ih, decMaxPy_val]

lemma le_foldl_max (l : List Dec) (a : ℚ) : a ≤ l.foldl (fun m v => max m v.val) a := by
  induction l generalizing a with
  | nil => exact le_rfl
  | cons v vs ih =>
    simp only [List.foldl_cons]
    exact le_trans (le_max_left _ _) (ih (max a v.val))

lemma mem_le_foldl_max {d : Dec} {l : List Dec} (h : d ∈ l) (a : ℚ) :
    d.val ≤ l.foldl (fun m v => max m v.val) a := by
  induction l generalizing a with
  | nil => exact absurd h (List.not_mem_nil d)
  | cons v vs ih =>
    simp only [List.foldl_cons]
    rcases List.mem_cons.mp h with h | h
    · subst h
      exact le_trans (le_max_right _ _) (le_foldl_max vs _)
    · exact ih h _

lemma le_listMaxPy {d : Dec} {l : List Dec} (h : d ∈ l) : d.val ≤ (listMaxPy l).val := by
  match l with
  | [] => exact absurd h (List.not_mem_nil d)
  | v :: vs =>
    rw [listMaxPy, foldl_decMaxPy_val]
    rcases List.mem_cons.mp h with h | h
    · subst h; exact le_foldl_max vs _
    · exact mem_le_foldl_max h _

lemma listMaxPy_val_eq_foldl (l : List Dec) (h : l ≠ []) :
    (listMaxPy l).val = l.foldl (fun m v => max m v.val) 0 := by
  match l with
  | [] => exact absurd rfl h
  | v :: vs =>
    rw [listMaxPy, foldl_decMaxPy_val]
    simp only [List.foldl_cons]
    rw [max_eq_right (Dec.val_nonneg v)]

/-! ## Digit rendering and the parse of a formatted value -/

lemma digitChar_spec : ∀ d < 10, (Nat.digitChar d).isDigit = true
    ∧ Nat.digitChar d ≠ '.' ∧ (Nat.digitChar d).toNat - 48 = d := by decide

lemma natDigitsAux_chars : ∀ fuel n, ∀ c ∈ natDigitsAux fuel n,
    c.isDigit = true ∧ c ≠ '.' := by
  intro fuel
  induction fuel with
  | zero => intro n c hc; simp [natDigitsAux] at hc
  | succ fuel ih =>
    intro n c hc
    match n with
    | 0 => simp [natDigitsAux] at hc
    | n + 1 =>
      rw [natDigitsAux] at hc
      rcases List.mem_cons.mp hc with h | h
      · subst h
        have hm : (n + 1) % 10 < 10 := Nat.mod_lt _ (by norm_num)
        exact ⟨(digitChar_spec _ hm).1, (digitChar_spec _ hm).2.1⟩
      · exact ih _ c h

lemma digitsVal_append_last (cs : List Char) (c : Char) :
    digitsVal (cs ++ [c]) = 10 * digitsVal cs + (c.toNat - 48) := by
  unfold digitsVal
  rw [List.foldl_append]
  rfl

lemma digitsVal_natDigitsAux : ∀ fuel n, n ≤ fuel →
    digitsVal (natDigitsAux fuel n).reverse = n := by
  intro fuel
  induction fuel with
  | zero =>
    intro n hn
    interval_cases n
    rfl
  | succ fuel ih =>
    intro n hn
    match n with
    | 0 => rfl
    | n + 1 =>
      rw [natDigitsAux, List.reverse_cons, digitsVal_append_last]
      have hdiv : (n + 1) / 10 ≤ fuel := by
        have h1 : (n + 1) / 10 < n + 1 := Nat.div_lt_self (Nat.succ_pos n) (by norm_num)
        omega
      rw [ih _ hdiv]
      have hm : (n + 1) % 10 < 10 := Nat.mod_lt _ (by norm_num)
      rw [(digitChar_spec _ hm).2.2]
      omega

lemma digitsVal_natRepr (n : Nat) : digitsVal (natRepr n).data = n := by
  by_cases h : n = 0
  · subst h; decide
  · rw [natRepr, if_neg h]
    exact digitsVal_natDigitsAux n n le_rfl

lemma natRepr_chars (n : Nat) : ∀ c ∈ (natRepr n).data, c.isDigit = true ∧ c ≠ '.' := by
  by_cases h : n = 0
  · subst h; decide
  · rw [natRepr, if_neg h]
    intro c hc
    exact natDigitsAux_chars n n c (List.mem_reverse.mp hc)

lemma natRepr_ne_nil (n : Nat) : (natRepr n).data ≠ [] := by
  by_cases h : n = 0
  · subst h; decide
  · rw [natRepr, if_neg h]
    match n, h with
    | n + 1, _ =>
      rw [natDigitsAux]
      simp

lemma natRepr_len : ∀ b < 10, ((natRepr b).data.length = 1) := by decide

lemma string_data_append (a b : String) : (a ++ b).data = a.data ++ b.data := rfl

lemma takeWhile_middle (p : Char → Bool) (A B : List Char) (x : Char)
    (hA : ∀ c ∈ A, p c = true) (hx : p x = false) :
    (A ++ x :: B).takeWhile p = A ∧ (A ++ x :: B).dropWhile p = x :: B := by
  induction A with
  | nil =>
    simp only [List.nil_append]
    rw [List.takeWhile_cons, List.dropWhile_cons, hx]
    exact ⟨rfl, rfl⟩
  | cons a A ih =>
    have ha : p a = true := hA a (List.mem_cons_self a A)
    have ih' := ih (fun c hc => hA c (List.mem_cons_of_mem a hc))
    simp only [List.cons_append]
    rw [List.takeWhile_cons, List.dropWhile_cons, ha]
    simp only [if_true]
    exact ⟨by rw [ih'.1], ih'.2⟩

lemma fmt1_data (d : Dec) :
    (fmt1 d).data = (natRepr (rhe10 d / 10)).data ++ '.' :: (natRepr (rhe10 d % 10)).data := by
  unfold fmt1
  rw [string_data_append, string_data_append]
  rw [List.append_assoc]
  rfl

lemma genuineParse_fmt1 (d : Dec) : genuineParse (fmt1 d) = some ⟨rhe10 d, 1⟩ := by
  have hA := natRepr_chars (rhe10 d / 10)
  have hB := natRepr_chars (rhe10 d % 10)
  have hAne := natRepr_ne_nil (rhe10 d / 10)
  have hBlen : ((natRepr (rhe10 d % 10)).data.length = 1) :=
    natRepr_len _ (Nat.mod_lt _ (by norm_num))
  set A := (natRepr (rhe10 d / 10)).data with hAdef
  set B := (natRepr (rhe10 d % 10)).data with hBdef
  have hdata : (fmt1 d).data = A ++ '.' :: B := fmt1_data d
  have hAnodot : ∀ c ∈ A, (c != '.') = true := by
    intro c hc
    exact bne_iff_ne.mpr (hA c hc).2
  have hBnodot : ∀ c ∈ B, (c != '.') = true := by
    intro c hc
    exact bne_iff_ne.mpr (hB c hc).2
  have hguard : pyIsdigit (removeDots (fmt1 d)) = true := by
    unfold pyIsdigit removeDots
    rw [hdata]
    have hfil : ((A ++ '.' :: B).filter (fun c => c != '.')) = A ++ B := by
      rw [List.filter_append, List.filter_cons]
      have : (('.' : Char) != '.') = false := by decide
      rw [this]
      simp only [Bool.false_eq_true, if_false]
      rw [List.filter_eq_self.mpr hAnodot, List.filter_eq_self.mpr hBnodot]
    rw [hfil]
    simp only [Bool.and_eq_true]
    constructor
    · cases hAB : A ++ B with
      | nil => exact absurd (List.append_eq_nil.mp hAB).1 hAne
      | cons x xs => simp
    · rw [List.all_append]
      simp only [Bool.and_eq_true, List.all_eq_true]
      exact ⟨fun c hc => (hA c hc).1, fun c hc => (hB c hc).1⟩
  have hdots : dotCount (fmt1 d) = 1 := by
    unfold dotCount
    rw [hdata, List.countP_append, List.countP_cons]
    have hA0 : A.countP (fun c => c == '.') = 0 :=
      List.countP_eq_zero.mpr (fun c hc hp => (hA c hc).2 (by exact beq_iff_eq.mp hp))
    have hB0 : B.countP (fun c => c == '.') = 0 :=
      List.countP_eq_zero.mpr (fun c hc hp => (hB c hc).2 (by exact beq_iff_eq.mp hp))
    have : (('.' : Char) == '.') = true := by decide
    rw [hA0, hB0, this]
    simp
  have hvalue : decValue (fmt1 d) = ⟨rhe10 d, 1⟩ := by
    unfold decValue
    have htw := takeWhile_middle (fun c => c != '.') A B '.' hAnodot (by decide)
    rw [hdata, htw.1, htw.2]
    simp only [List.drop_succ_cons, List.drop_zero]
    rw [hBlen]
    have hdv : digitsVal A * 10 ^ 1 + digitsVal B = rhe10 d := by
      rw [hAdef, hBdef, digitsVal_natRepr, digitsVal_natRepr]
      have := Nat.div_add_mod (rhe10 d) 10
      omega
    rw [hdv]
  unfold genuineParse
  rw [hguard, hdots]
  simp only [if_true, Nat.le_refl, if_pos]
  rw [hvalue]

/-! ## Rounding lemmas -/

lemma rhe10_cases (d : Dec) :
    (rhe10 d = (10 * d.num) / 10 ^ d.exp
      ∧ 2 * ((10 * d.num) % 10 ^ d.exp) ≤ 10 ^ d.exp)
    ∨ (rhe10 d = (10 * d.num) / 10 ^ d.exp + 1
      ∧ 10 ^ d.exp ≤ 2 * ((10 * d.num) % 10 ^ d.exp)) := by
  unfold rhe10
  split_ifs with h1 h2 h3
  · exact Or.inl ⟨rfl, le_of_lt h1⟩
  · exact Or.inr ⟨rfl, le_of_lt h2⟩
  · exact Or.inl ⟨rfl, by omega⟩
  · exact Or.inr ⟨rfl, by omega⟩

lemma div_ten_bounds (d : Dec) :
    ((((10 * d.num) / 10 ^ d.exp : ℕ) : ℚ) ≤ 10 * d.val)
    ∧ (10 * d.val < (((10 * d.num) / 10 ^ d.exp : ℕ) : ℚ) + 1)
    ∧ ((((10 * d.num) % 10 ^ d.exp : ℕ) : ℚ) / ((10 ^ d.exp : ℕ) : ℚ)
        = 10 * d.val - (((10 * d.num) / 10 ^ d.exp : ℕ) : ℚ)) := by
  have hDnat : 0 < 10 ^ d.exp := pow_pos (by norm_num) d.exp
  have hDQ : (0 : ℚ) < ((10 ^ d.exp : ℕ) : ℚ) := by exact_mod_cast hDnat
  have hNat := Nat.div_add_mod (10 * d.num) (10 ^ d.exp)
  have hrlt : (10 * d.num) % 10 ^ d.exp < 10 ^ d.exp := Nat.mod_lt _ hDnat
  have hval : 10 * d.val = ((10 * d.num : ℕ) : ℚ) / ((10 ^ d.exp : ℕ) : ℚ) := by
    unfold Dec.val
    push_cast
    ring
  have e1 : ((10 * d.num : ℕ) : ℚ)
      = ((10 ^ d.exp : ℕ) : ℚ) * (((10 * d.num) / 10 ^ d.exp : ℕ) : ℚ)
        + (((10 * d.num) % 10 ^ d.exp : ℕ) : ℚ) := by
    exact_mod_cast hNat.symm
  have e2 : (((10 * d.num) % 10 ^ d.exp : ℕ) : ℚ) < ((10 ^ d.exp : ℕ) : ℚ) := by
    exact_mod_cast hrlt
  have e3 : (0 : ℚ) ≤ (((10 * d.num) % 10 ^ d.exp : ℕ) : ℚ) := Nat.cast_nonneg _
  refine ⟨?_, ?_, ?_⟩
  · rw [hval, le_div_iff₀ hDQ]
    nlinarith [e1, e3]
  · rw [hval, div_lt_iff₀ hDQ]
    nlinarith [e1, e2]
  · rw [hval]
    field_simp
    push_cast at e1 ⊢
    linarith [e1]

lemma rhe10_half (d : Dec) : (10 : ℚ) * d.val ≤ (rhe10 d : ℚ) + 1 / 2 := by
  have hDnat : 0 < 10 ^ d.exp := pow_pos (by norm_num) d.exp
  have hDQ : (0 : ℚ) < ((10 ^ d.exp : ℕ) : ℚ) := by exact_mod_cast hDnat
  have hb := div_ten_bounds d
  rcases rhe10_cases d with ⟨hm, hr⟩ | ⟨hm, hr⟩
  · have hrq : 2 * ((((10 * d.num) % 10 ^ d.exp : ℕ)) : ℚ) ≤ ((10 ^ d.exp : ℕ) : ℚ) := by
      exact_mod_cast hr
    have ht : (((10 * d.num) % 10 ^ d.exp : ℕ) : ℚ) / ((10 ^ d.exp : ℕ) : ℚ) ≤ 1 / 2 := by
      rw [div_le_iff₀ hDQ]
      linarith
    rw [hm]
    have := hb.2.2
    linarith [this, ht]
  · rw [hm]
    push_cast
    linarith [hb.2.1]

lemma mod_half_iff (d : Dec) :
    (2 * ((10 * d.num) % 10 ^ d.exp) < 10 ^ d.exp ↔
      10 * d.val - (((10 * d.num) / 10 ^ d.exp : ℕ) : ℚ) < 1 / 2) ∧
    (10 ^ d.exp < 2 * ((10 * d.num) % 10 ^ d.exp) ↔
      1 / 2 < 10 * d.val - (((10 * d.num) / 10 ^ d.exp : ℕ) : ℚ)) := by
  have hDnat : 0 < 10 ^ d.exp := pow_pos (by norm_num) d.exp
  have hDQ : (0 : ℚ) < ((10 ^ d.exp : ℕ) : ℚ) := by exact_mod_cast hDnat
  have hr := (div_ten_bounds d).2.2
  constructor
  · constructor
    · intro hlt
      have hq : 2 * (((10 * d.num) % 10 ^ d.exp : ℕ) : ℚ) < ((10 ^ d.exp : ℕ) : ℚ) := by
        exact_mod_cast hlt
      rw [← hr, div_lt_iff₀ hDQ]
      linarith
    · intro hlt
      rw [← hr, div_lt_iff₀ hDQ] at hlt
      have hq : 2 * (((10 * d.num) % 10 ^ d.exp : ℕ) : ℚ) < ((10 ^ d.exp : ℕ) : ℚ) := by
        linarith
      exact_mod_cast hq
  · constructor
    · intro hlt
      have hq : ((10 ^ d.exp : ℕ) : ℚ) < 2 * (((10 * d.num) % 10 ^ d.exp : ℕ) : ℚ) := by
        exact_mod_cast hlt
      rw [← hr, lt_div_iff₀ hDQ]
      linarith
    · intro hlt
      rw [← hr, lt_div_iff₀ hDQ] at hlt
      have hq : ((10 ^ d.exp : ℕ) : ℚ) < 2 * (((10 * d.num) % 10 ^ d.exp : ℕ) : ℚ) := by
        linarith
      exact_mod_cast hq

lemma rhe10_val_congr (a b : Dec) (h : a.val = b.val) : rhe10 a = rhe10 b := by
  have hba := div_ten_bounds a
  have hbb := div_ten_bounds b
  have hfl : (10 * a.num) / 10 ^ a.exp = (10 * b.num) / 10 ^ b.exp := by
    have h1 : ((((10 * a.num) / 10 ^ a.exp : ℕ)) : ℚ)
        < (((10 * b.num) / 10 ^ b.exp : ℕ) : ℚ) + 1 := by
      calc ((((10 * a.num) / 10 ^ a.exp : ℕ)) : ℚ) ≤ 10 * a.val := hba.1
        _ = 10 * b.val := by rw [h]
        _ < (((10 * b.num) / 10 ^ b.exp : ℕ) : ℚ) + 1 := hbb.2.1
    have h2 : ((((10 * b.num) / 10 ^ b.exp : ℕ)) : ℚ)
        < (((10 * a.num) / 10 ^ a.exp : ℕ) : ℚ) + 1 := by
      calc ((((10 * b.num) / 10 ^ b.exp : ℕ)) : ℚ) ≤ 10 * b.val := hbb.1
        _ = 10 * a.val := by rw [h]
        _ < (((10 * a.num) / 10 ^ a.exp : ℕ) : ℚ) + 1 := hba.2.1
    have h1' : (10 * a.num) / 10 ^ a.exp < (10 * b.num) / 10 ^ b.exp + 1 := by
      exact_mod_cast h1
    have h2' : (10 * b.num) / 10 ^ b.exp < (10 * a.num) / 10 ^ a.exp + 1 := by
      exact_mod_cast h2
    omega
  have hc1 : (2 * ((10 * a.num) % 10 ^ a.exp) < 10 ^ a.exp)
      ↔ (2 * ((10 * b.num) % 10 ^ b.exp) < 10 ^ b.exp) := by
    rw [(mod_half_iff a).1, (mod_half_iff b).1, h, hfl]
  have hc2 : (10 ^ a.exp < 2 * ((10 * a.num) % 10 ^ a.exp))
      ↔ (10 ^ b.exp < 2 * ((10 * b.num) % 10 ^ b.exp)) := by
    rw [(mod_half_iff a).2, (mod_half_iff b).2, h, hfl]
  unfold rhe10
  rw [hfl]
  exact if_congr hc1 rfl (if_congr hc2 rfl rfl)

lemma fmt1_val_congr (a b : Dec) (h : a.val = b.val) : fmt1 a = fmt1 b := by
  unfold fmt1
  rw [rhe10_val_congr a b h]

/-! ## Structure of the version-scanning fold -/

lemma entryOutcome_eq_genuine (e : DistEntry) :
    entryOutcome e = genuineParse (versionStr e)
      ∨ (entryOutcome e = some decZero ∧ genuineParse (versionStr e) = none) := by
  unfold entryOutcome genuineParse
  by_cases h : pyIsdigit (removeDots (versionStr e)) = true
  · left
    rw [if_pos h, if_pos h]
  · right
    rw [if_neg h, if_neg h]
    exact ⟨rfl, rfl⟩

lemma genuine_mem_outcome {l : List DistEntry} {v : Dec} (h : v ∈ genuineVersions l) :
    v ∈ l.filterMap entryOutcome := by
  unfold genuineVersions at h
  rcases List.mem_filterMap.mp h with ⟨e, he, hp⟩
  rcases entryOutcome_eq_genuine e with heq | ⟨_, hnone⟩
  · exact List.mem_filterMap.mpr ⟨e, he, heq.trans hp⟩
  · rw [hp] at hnone
    cases hnone

lemma mem_outcome_cases {l : List DistEntry} {v : Dec} (h : v ∈ l.filterMap entryOutcome) :
    v ∈ genuineVersions l ∨ v = decZero := by
  rcases List.mem_filterMap.mp h with ⟨e, he, hp⟩
  rcases entryOutcome_eq_genuine e with heq | ⟨hz, _⟩
  · left
    rw [heq] at hp
    exact List.mem_filterMap.mpr ⟨e, he, hp⟩
  · right
    rw [hz] at hp
    exact (Option.some.inj hp).symm

lemma foldl_distStep_versions (l : List DistEntry) (vs : List Dec) (ld : Option DistEntry)
    (lv : Dec) :
    (l.foldl distStep (vs, ld, lv)).1 = vs ++ l.filterMap entryOutcome := by
  induction l generalizing vs ld lv with
  | nil => simp
  | cons e l ih =>
    simp only [List.foldl_cons, List.filterMap_cons]
    cases ho : entryOutcome e with
    | none =>
      rw [show distStep (vs, ld, lv) e = (vs, ld, lv) by simp [distStep, ho]]
      exact ih vs ld lv
    | some v =>
      by_cases hlt : decValLt lv v = true
      · rw [show distStep (vs, ld, lv) e = (vs ++ [v], some e, v) by simp [distStep, ho, hlt]]
        rw [ih (vs ++ [v]) (some e) v]
        simp
      · rw [show distStep (vs, ld, lv) e = (vs ++ [v], ld, lv) by
          simp [distStep, ho, hlt]]
        rw [ih (vs ++ [v]) ld lv]
        simp

lemma foldl_distStep_lv (l : List DistEntry) (vs : List Dec) (ld : Option DistEntry)
    (lv : Dec) :
    ((l.foldl distStep (vs, ld, lv)).2.2).val
      = (l.filterMap entryOutcome).foldl (fun m v => max m v.val) lv.val := by
  induction l generalizing vs ld lv with
  | nil => rfl
  | cons e l ih =>
    simp only [List.foldl_cons, List.filterMap_cons]
    cases ho : entryOutcome e with
    | none =>
      rw [show distStep (vs, ld, lv) e = (vs, ld, lv) by simp [distStep, ho]]
      exact ih vs ld lv
    | some v =>
      by_cases hlt : decValLt lv v = true
      · rw [show distStep (vs, ld, lv) e = (vs ++ [v], some e, v) by simp [distStep, ho, hlt]]
        rw [ih (vs ++ [v]) (some e) v]
        simp only [List.foldl_cons]
        rw [max_eq_right ((decValLt_iff lv v).mp hlt).le]
      · rw [show distStep (vs, ld, lv) e = (vs ++ [v], ld, lv) by
          simp [distStep, ho, hlt]]
        rw [ih (vs ++ [v]) ld lv]
        simp only [List.foldl_cons]
        have hle : v.val ≤ lv.val :=
          le_of_not_lt (fun hc => hlt ((decValLt_iff lv v).mpr hc))
        rw [max_eq_left hle]

lemma foldl_distStep_latest_cases (l : List DistEntry) (vs : List Dec)
    (ld : Option DistEntry) (lv : Dec) :
    ((l.foldl distStep (vs, ld, lv)).2.1 = ld ∧ (l.foldl distStep (vs, ld, lv)).2.2 = lv)
    ∨ (∃ e ∈ l, (l.foldl distStep (vs, ld, lv)).2.1 = some e
        ∧ entryOutcome e = some ((l.foldl distStep (vs, ld, lv)).2.2)
        ∧ lv.val < ((l.foldl distStep (vs, ld, lv)).2.2).val) := by
  induction l generalizing vs ld lv with
  | nil => exact Or.inl ⟨rfl, rfl⟩
  | cons e l ih =>
    simp only [List.foldl_cons]
    cases ho : entryOutcome e with
    | none =>
      rw [show distStep (vs, ld, lv) e = (vs, ld, lv) by simp [distStep, ho]]
      rcases ih vs ld lv with h | ⟨e', he', h1, h2, h3⟩
      · exact Or.inl h
      · exact Or.inr ⟨e', List.mem_cons_of_mem e he', h1, h2, h3⟩
    | some v =>
      by_cases hlt : decValLt lv v = true
      · rw [show distStep (vs, ld, lv) e = (vs ++ [v], some e, v) by simp [distStep, ho, hlt]]
        rcases ih (vs ++ [v]) (some e) v with ⟨h1, h2⟩ | ⟨e', he', h1, h2, h3⟩
        · refine Or.inr ⟨e, List.mem_cons_self e l, h1, ?_, ?_⟩
          · rw [h2]
            exact ho
          · rw [h2]
            exact (decValLt_iff lv v).mp hlt
        · refine Or.inr ⟨e', List.mem_cons_of_mem e he', h1, h2, ?_⟩
          exact lt_trans ((decValLt_iff lv v).mp hlt) h3
      · rw [show distStep (vs, ld, lv) e = (vs ++ [v], ld, lv) by
          simp [distStep, ho, hlt]]
        rcases ih (vs ++ [v]) ld lv with h | ⟨e', he', h1, h2, h3⟩
        · exact Or.inl h
        · exact Or.inr ⟨e', List.mem_cons_of_mem e he', h1, h2, h3⟩

lemma foldl_distStep_isSome (l : List DistEntry) (vs : List Dec) (e : DistEntry) (lv : Dec) :
    (l.foldl distStep (vs, some e, lv)).2.1.isSome = true := by
  induction l generalizing vs e lv with
  | nil => rfl
  | cons f l ih =>
    simp only [List.foldl_cons]
    cases ho : entryOutcome f with
    | none =>
      rw [show distStep (vs, some e, lv) f = (vs, some e, lv) by simp [distStep, ho]]
      exact ih vs e lv
    | some v =>
      by_cases hlt : decValLt lv v = true
      · rw [show distStep (vs, some e, lv) f = (vs ++ [v], some f, v) by
          simp [distStep, ho, hlt]]
        exact ih (vs ++ [v]) f v
      · rw [show distStep (vs, some e, lv) f = (vs ++ [v], some e, lv) by
          simp [distStep, ho, hlt]]
        exact ih (vs ++ [v]) e lv

lemma foldl_distStep_none_bound (l : List DistEntry) (vs : List Dec) (lv : Dec)
    (h : (l.foldl distStep (vs, none, lv)).2.1 = none) :
    ∀ v ∈ l.filterMap entryOutcome, v.val ≤ lv.val := by
  induction l generalizing vs lv with
  | nil =>
    intro v hv
    cases hv
  | cons e l ih =>
    simp only [List.foldl_cons] at h
    intro v hv
    simp only [List.filterMap_cons] at hv
    cases ho : entryOutcome e with
    | none =>
      rw [show distStep (vs, none, lv) e = (vs, none, lv) by simp [distStep, ho]] at h
      rw [ho] at hv
      exact ih vs lv h v hv
    | some w =>
      by_cases hlt : decValLt lv w = true
      · exfalso
        rw [show distStep (vs, none, lv) e = (vs ++ [w], some e, w) by
          simp [distStep, ho, hlt]] at h
        have := foldl_distStep_isSome l (vs ++ [w]) e w
        rw [h] at this
        cases this
      · rw [show distStep (vs, none, lv) e = (vs ++ [w], none, lv) by
          simp [distStep, ho, hlt]] at h
        rw [ho] at hv
        rcases List.mem_cons.mp hv with hveq | hvmem
        · subst hveq
          exact le_of_not_lt (fun hc => hlt ((decValLt_iff lv v).mpr hc))
        · exact ih (vs ++ [w]) lv h v hvmem

lemma foldl_max_outcome_genuine (l : List DistEntry) (a : ℚ) (ha : 0 ≤ a) :
    (l.filterMap entryOutcome).foldl (fun m v => max m v.val) a
      = (genuineVersions l).foldl (fun m v => max m v.val) a := by
  induction l generalizing a with
  | nil => rfl
  | cons e l ih =>
    unfold genuineVersions
    simp only [List.filterMap_cons]
    rcases entryOutcome_eq_genuine e with heq | ⟨hz, hn⟩
    · rw [heq]
      cases hg : genuineParse (versionStr e) with
      | none => exact ih a ha
      | some v =>
        simp only [List.foldl_cons]
        exact ih (max a v.val) (le_trans ha (le_max_left a v.val))
    · rw [hz, hn]
      simp only [List.foldl_cons]
      rw [decZero_val, max_eq_left ha]
      exact ih a ha

lemma bumpVersion_noop (versions : List Dec) (next : Dec) (fuel : Nat)
    (h : ∀ v ∈ versions, v.val ≠ next.val) :
    bumpVersion versions next fuel = next := by
  cases fuel with
  | zero => rfl
  | succ fuel =>
    rw [bumpVersion]
    have hany : versions.any (fun v => decValEq v next) = false := by
      rw [List.any_eq_false]
      intro v hv hc
      exact h v hv ((decValEq_iff v next).mp hc)
    rw [hany]
    simp

/-! ## Evaluation of `find_existing_distribution` -/

lemma genuineVersions_nil : genuineVersions [] = [] := rfl

lemma genuine_ne_imp {l : List DistEntry} (hg : genuineVersions l ≠ []) :
    l ≠ [] ∧ l.filterMap entryOutcome ≠ [] := by
  constructor
  · intro h
    subst h
    exact hg rfl
  · cases hgl : genuineVersions l with
    | nil => exact absurd hgl hg
    | cons x xs =>
      have hx : x ∈ genuineVersions l := by
        rw [hgl]
        exact List.mem_cons_self x xs
      have hmem := genuine_mem_outcome hx
      intro hnil
      rw [hnil] at hmem
      cases hmem

lemma isEmpty_false_of_ne {α : Type} {l : List α} (h : l ≠ []) : l.isEmpty = false := by
  cases l with
  | nil => exact absurd rfl h
  | cons x xs => rfl

lemma find_some_eval (l : List DistEntry) (hne : l ≠ [])
    (hv : l.filterMap entryOutcome ≠ []) :
    find_existing_distribution (some l)
      = ((l.foldl distStep ([], none, decZero)).2.1.map DistEntry.id,
        fmt1 (decAddOne (listMaxPy (l.filterMap entryOutcome)))) := by
  have hno : ∀ v ∈ l.filterMap entryOutcome,
      v.val ≠ (decAddOne (listMaxPy (l.filterMap entryOutcome))).val := by
    intro v hvmem
    have h1 : v.val ≤ (listMaxPy (l.filterMap entryOutcome)).val := le_listMaxPy hvmem
    rw [decAddOne_val]
    intro hc
    rw [hc] at h1
    linarith
  simp only [find_existing_distribution]
  rw [foldl_distStep_versions l [] none decZero, List.nil_append]
  rw [isEmpty_false_of_ne hne, isEmpty_false_of_ne hv]
  simp only [Bool.false_eq_true, if_false]
  rw [bumpVersion_noop _ _ _ hno]
  cases hld : (l.foldl distStep ([], none, decZero)).2.1 with
  | none => rfl
  | some ds => rfl

lemma oneDec_val : (⟨10, 1⟩ : Dec).val = 1 := by
  unfold Dec.val
  norm_num

lemma find_genuine_empty (l : List DistEntry) (hg : genuineVersions l = []) :
    find_existing_distribution (some l) = (none, "1.0") := by
  by_cases hne : l = []
  · subst hne
    decide
  · by_cases hv : l.filterMap entryOutcome = []
    · simp only [find_existing_distribution]
      rw [foldl_distStep_versions l [] none decZero, List.nil_append]
      rw [isEmpty_false_of_ne hne, hv]
      rfl
    · rw [find_some_eval l hne hv]
      have hmaxval : (listMaxPy (l.filterMap entryOutcome)).val = 0 := by
        rw [listMaxPy_val_eq_foldl _ hv, foldl_max_outcome_genuine l 0 le_rfl, hg]
        rfl
      have hfst : (l.foldl distStep ([], none, decZero)).2.1 = none := by
        rcases foldl_distStep_latest_cases l [] none decZero with ⟨h1, _⟩ | ⟨e, _, _, _, h3⟩
        · exact h1
        · exfalso
          have hlv := foldl_distStep_lv l [] none decZero
          rw [decZero_val] at hlv h3
          rw [hlv, foldl_max_outcome_genuine l 0 le_rfl, hg] at h3
          simp at h3
      rw [hfst]
      have hsnd : fmt1 (decAddOne (listMaxPy (l.filterMap entryOutcome))) = "1.0" := by
        have hval1 : (decAddOne (listMaxPy (l.filterMap entryOutcome))).val
            = (⟨10, 1⟩ : Dec).val := by
          rw [decAddOne_val, hmaxval, oneDec_val]
          norm_num
        rw [fmt1_val_congr _ _ hval1]
        decide
      rw [hsnd]
      rfl

lemma find_snd_genuine (l : List DistEntry) (hg : genuineVersions l ≠ []) :
    (find_existing_distribution (some l)).2
      = fmt1 (decAddOne (listMaxPy (genuineVersions l))) := by
  obtain ⟨hne, hv⟩ := genuine_ne_imp hg
  rw [find_some_eval l hne hv]
  show fmt1 (decAddOne (listMaxPy (l.filterMap entryOutcome))) = _
  apply fmt1_val_congr
  rw [decAddOne_val, decAddOne_val]
  congr 1
  rw [listMaxPy_val_eq_foldl _ hv, listMaxPy_val_eq_foldl _ hg,
    foldl_max_outcome_genuine l 0 le_rfl]

lemma find_fst_latest (l : List DistEntry) (d0 : Dec) (hmem : d0 ∈ genuineVersions l)
    (hpos : 0 < d0.val) :
    ∃ e ∈ l, (find_existing_distribution (some l)).1 = some e.id
      ∧ ∃ dm, genuineParse (versionStr e) = some dm
        ∧ dm.val = (listMaxPy (genuineVersions l)).val := by
  have hg : genuineVersions l ≠ [] := by
    intro h
    rw [h] at hmem
    cases hmem
  obtain ⟨hne, hv⟩ := genuine_ne_imp hg
  have hmaxg : ((l.foldl distStep ([], none, decZero)).2.2).val
      = (listMaxPy (genuineVersions l)).val := by
    rw [foldl_distStep_lv l [] none decZero, decZero_val,
      listMaxPy_val_eq_foldl _ hg, foldl_max_outcome_genuine l 0 le_rfl]
  rcases foldl_distStep_latest_cases l [] none decZero with ⟨h1, _⟩ | ⟨e, he, h1, h2, h3⟩
  · exfalso
    have hb := foldl_distStep_none_bound l [] decZero h1
    have := hb d0 (genuine_mem_outcome hmem)
    rw [decZero_val] at this
    linarith
  · refine ⟨e, he, ?_, ?_⟩
    · rw [find_some_eval l hne hv, h1]
      rfl
    · rw [decZero_val] at h3
      rcases entryOutcome_eq_genuine e with heq | ⟨hz, _⟩
      · exact ⟨_, heq.symm.trans h2, hmaxg⟩
      · exfalso
        rw [hz] at h2
        have : decZero = (l.foldl distStep ([], none, decZero)).2.2 := Option.some.inj h2
        rw [← this, decZero_val] at h3
        exact lt_irrefl 0 h3

/-! ## Unparseable entries are inert -/

lemma genuineVersions_filter (l : List DistEntry) :
    genuineVersions (l.filter (fun e => (genuineParse (versionStr e)).isSome))
      = genuineVersions l := by
  induction l with
  | nil => rfl
  | cons e l ih =>
    cases hg : genuineParse (versionStr e) with
    | none =>
      have hfil : List.filter (fun x => (genuineParse (versionStr x)).isSome) (e :: l)
          = List.filter (fun x => (genuineParse (versionStr x)).isSome) l := by
        rw [List.filter_cons, hg]
        simp
      have hrhs : genuineVersions (e :: l) = genuineVersions l := by
        unfold genuineVersions
        rw [List.filterMap_cons, hg]
      rw [hfil, hrhs]
      exact ih
    | some v =>
      have hfil : List.filter (fun x => (genuineParse (versionStr x)).isSome) (e :: l)
          = e :: List.filter (fun x => (genuineParse (versionStr x)).isSome) l := by
        rw [List.filter_cons, hg]
        simp
      have hrhs : genuineVersions (e :: l) = v :: genuineVersions l := by
        unfold genuineVersions
        rw [List.filterMap_cons, hg]
      have hlhs : genuineVersions
            (e :: List.filter (fun x => (genuineParse (versionStr x)).isSome) l)
          = v :: genuineVersions
              (List.filter (fun x => (genuineParse (versionStr x)).isSome) l) := by
        unfold genuineVersions
        rw [List.filterMap_cons, hg]
      rw [hfil, hlhs, hrhs, ih]

lemma outcome_filter_eq_genuine (l : List DistEntry) :
    (l.filter (fun e => (genuineParse (versionStr e)).isSome)).filterMap entryOutcome
      = genuineVersions l := by
  induction l with
  | nil => rfl
  | cons e l ih =>
    cases hg : genuineParse (versionStr e) with
    | none =>
      have hfil : List.filter (fun x => (genuineParse (versionStr x)).isSome) (e :: l)
          = List.filter (fun x => (genuineParse (versionStr x)).isSome) l := by
        rw [List.filter_cons, hg]
        simp
      have hrhs : genuineVersions (e :: l) = genuineVersions l := by
        unfold genuineVersions
        rw [List.filterMap_cons, hg]
      rw [hfil, hrhs]
      exact ih
    | some v =>
      have ho : entryOutcome e = some v := by
        rcases entryOutcome_eq_genuine e with heq | ⟨_, hn⟩
        · rw [heq, hg]
        · rw [hn] at hg
          cases hg
      have hfil : List.filter (fun x => (genuineParse (versionStr x)).isSome) (e :: l)
          = e :: List.filter (fun x => (genuineParse (versionStr x)).isSome) l := by
        rw [List.filter_cons, hg]
        simp
      have hrhs : genuineVersions (e :: l) = v :: genuineVersions l := by
        unfold genuineVersions
        rw [List.filterMap_cons, hg]
      rw [hfil, hrhs, List.filterMap_cons, ho, ih]

lemma foldl_distStep_filter_latest (l : List DistEntry) (vs vs' : List Dec)
    (ld : Option DistEntry) (lv : Dec) (hlv : 0 ≤ lv.val) :
    (l.foldl distStep (vs, ld, lv)).2
      = ((l.filter (fun e => (genuineParse (versionStr e)).isSome)).foldl distStep
          (vs', ld, lv)).2 := by
  induction l generalizing vs vs' ld lv with
  | nil => rfl
  | cons e l ih =>
    cases hg : genuineParse (versionStr e) with
    | some v =>
      have ho : entryOutcome e = some v := by
        rcases entryOutcome_eq_genuine e with heq | ⟨_, hn⟩
        · rw [heq, hg]
        · rw [hn] at hg
          cases hg
      have hfil : List.filter (fun x => (genuineParse (versionStr x)).isSome) (e :: l)
          = e :: List.filter (fun x => (genuineParse (versionStr x)).isSome) l := by
        rw [List.filter_cons, hg]
        simp
      rw [hfil]
      simp only [List.foldl_cons]
      by_cases hlt : decValLt lv v = true
      · rw [show distStep (vs, ld, lv) e = (vs ++ [v], some e, v) by
          simp [distStep, ho, hlt]]
        rw [show distStep (vs', ld, lv) e = (vs' ++ [v], some e, v) by
          simp [distStep, ho, hlt]]
        exact ih (vs ++ [v]) (vs' ++ [v]) (some e) v (Dec.val_nonneg v)
      · rw [show distStep (vs, ld, lv) e = (vs ++ [v], ld, lv) by
          simp [distStep, ho, hlt]]
        rw [show distStep (vs', ld, lv) e = (vs' ++ [v], ld, lv) by
          simp [distStep, ho, hlt]]
        exact ih (vs ++ [v]) (vs' ++ [v]) ld lv hlv
    | none =>
      have hfil : List.filter (fun x => (genuineParse (versionStr x)).isSome) (e :: l)
          = List.filter (fun x => (genuineParse (versionStr x)).isSome) l := by
        rw [List.filter_cons, hg]
        simp
      rw [hfil]
      simp only [List.foldl_cons]
      rcases entryOutcome_eq_genuine e with heq | ⟨hz, _⟩
      · have ho : entryOutcome e = none := by
          rw [heq, hg]
        rw [show distStep (vs, ld, lv) e = (vs, ld, lv) by simp [distStep, ho]]
        exact ih vs vs' ld lv hlv
      · have hlt : ¬ decValLt lv decZero = true := by
          intro hc
          have := (decValLt_iff lv decZero).mp hc
          rw [decZero_val] at this
          have := Dec.val_nonneg lv
          linarith
        rw [show distStep (vs, ld, lv) e = (vs ++ [decZero], ld, lv) by
          simp [distStep, hz, hlt]]
        exact ih (vs ++ [decZero]) vs' ld lv hlv

/-! ## Helper lemmas for the orchestration functions -/

lemma eq_nil_of_isEmpty {α : Type} {l : List α} (h : l.isEmpty = true) : l = [] := by
  cases l with
  | nil => rfl
  | cons x xs => cases h

lemma find_snd_parses (fetch : Option (List DistEntry)) :
    ∃ d, genuineParse (find_existing_distribution fetch).2 = some d := by
  cases fetch with
  | none => exact ⟨⟨10, 1⟩, by decide⟩
  | some l =>
    by_cases hg : genuineVersions l = []
    · rw [find_genuine_empty l hg]
      exact ⟨⟨10, 1⟩, by decide⟩
    · rw [find_snd_genuine l hg]
      exact ⟨_, genuineParse_fmt1 _⟩

lemma createNew_trace_head (createResp : String → CreateResult)
    (server : TargetsRequest → Except String TargetsPage)
    (assignResp : Nat → String → AssignResp) (assign_to_all : Bool) (ver : String) :
    ∃ rest, (createNewDistribution createResp server assignResp assign_to_all ver).2
      = ver :: rest := by
  simp only [createNewDistribution]
  cases createResp ver with
  | netError => exact ⟨[], rfl⟩
  | resp st body =>
    dsimp only
    by_cases h409 : (st == 409) = true
    · rw [if_pos h409]
      cases genuineParse ver with
      | none => exact ⟨[], rfl⟩
      | some cur =>
        dsimp only
        cases createResp (fmt1 (decAddOne cur)) with
        | netError => exact ⟨[fmt1 (decAddOne cur)], rfl⟩
        | resp st2 body2 => exact ⟨[fmt1 (decAddOne cur)], rfl⟩
    · rw [if_neg h409]
      exact ⟨[], rfl⟩

lemma create_or_update_cases (env : HawkbitEnv) (module_id : Nat) (assign_to_all : Bool) :
    (create_or_update_distribution env module_id assign_to_all
        = createNewDistribution env.createResp env.targetsServer env.assignResp assign_to_all
            (find_existing_distribution env.lookup).2)
    ∨ (create_or_update_distribution env module_id assign_to_all).2 = [] := by
  simp only [create_or_update_distribution]
  by_cases ht : pyTruthyOptNat (find_existing_distribution env.lookup).1 = true
  · rw [if_pos ht]
    cases hm : env.modulesOf ((find_existing_distribution env.lookup).1.getD 0) with
    | netError => exact Or.inl rfl
    | resp mst modules =>
      dsimp only
      by_cases hc : (mst == 200 && modules.any (fun mo => mo.id? == some module_id)) = true
      · rw [if_pos hc]
        right
        by_cases ha : (assign_to_all
            && !(assign_distribution_to_targets env.targetsServer env.assignResp
                  ((find_existing_distribution env.lookup).1.getD 0)).1) = true
        · rw [if_pos ha]
        · rw [if_neg ha]
      · rw [if_neg hc]
        exact Or.inl rfl
  · rw [if_neg ht]
    exact Or.inl rfl

lemma assign_foldl (assignResp : Nat → String → AssignResp) (dist_id : Nat)
    (targets : List TargetRec) (cnt : Nat) (tr : List String) :
    (targets.foldl (assignStep assignResp dist_id) (cnt, tr)).1
        = cnt + targets.countP (fun t =>
            match assignResp dist_id t.controllerId with
            | AssignResp.resp st => st == 200 || st == 201
            | AssignResp.netError => false)
    ∧ (targets.foldl (assignStep assignResp dist_id) (cnt, tr)).2
        = tr ++ targets.map (fun t => t.controllerId) := by
  induction targets generalizing cnt tr with
  | nil => simp
  | cons t ts ih =>
    simp only [List.foldl_cons, List.countP_cons, List.map_cons]
    cases har : assignResp dist_id t.controllerId with
    | resp st =>
      by_cases hok : (st == 200 || st == 201) = true
      · rw [show assignStep assignResp dist_id (cnt, tr) t
            = (cnt + 1, tr ++ [t.controllerId]) by simp [assignStep, har, hok]]
        obtain ⟨h1, h2⟩ := ih (cnt + 1) (tr ++ [t.controllerId])
        constructor
        · rw [h1]
          simp only [hok, if_true]
          omega
        · rw [h2]
          simp
      · have hok' : (st == 200 || st == 201) = false := by
          cases hb : (st == 200 || st == 201) with
          | true => exact absurd hb hok
          | false => rfl
        rw [show assignStep assignResp dist_id (cnt, tr) t
            = (cnt, tr ++ [t.controllerId]) by simp [assignStep, har, hok']]
        obtain ⟨h1, h2⟩ := ih cnt (tr ++ [t.controllerId])
        constructor
        · rw [h1]
          simp [hok']
        · rw [h2]
          simp
    | netError =>
      rw [show assignStep assignResp dist_id (cnt, tr) t
          = (cnt, tr ++ [t.controllerId]) by simp [assignStep, har]]
      obtain ⟨h1, h2⟩ := ih cnt (tr ++ [t.controllerId])
      constructor
      · rw [h1]
        simp
      · rw [h2]
        simp

/-! ## Claim theorems -/

/-- C1: For every set `V` of existing versions (possibly empty) of a given
distribution name — the versions of the fetched DistributionSets that parse as
non-negative decimals — the version selected by `find_existing_distribution`
equals `"1.0"` if `V` is empty, and otherwise equals `max(V) + 1.0` formatted
with exactly one decimal digit; and in every case the value of the selected
version is not a member of `V`. -/
theorem c1_selected_version (l : List DistEntry) :
    (genuineVersions l = [] → (find_existing_distribution (some l)).2 = "1.0")
    ∧ (genuineVersions l ≠ [] →
        (find_existing_distribution (some l)).2
          = fmt1 (decAddOne (listMaxPy (genuineVersions l))))
    ∧ (∀ d, genuineParse ((find_existing_distribution (some l)).2) = some d →
        ∀ w ∈ genuineVersions l, d.val ≠ w.val) := by
  refine ⟨?_, ?_, ?_⟩
  · intro hg
    rw [find_genuine_empty l hg]
  · intro hg
    exact find_snd_genuine l hg
  · intro d hd w hw
    have hg : genuineVersions l ≠ [] := by
      intro h
      rw [h] at hw
      cases hw
    rw [find_snd_genuine l hg, genuineParse_fmt1] at hd
    obtain rfl : (⟨rhe10 (decAddOne (listMaxPy (genuineVersions l))), 1⟩ : Dec) = d :=
      Option.some.inj hd
    intro hceq
    have h1 := rhe10_half (decAddOne (listMaxPy (genuineVersions l)))
    rw [decAddOne_val] at h1
    have h2 : w.val ≤ (listMaxPy (genuineVersions l)).val := le_listMaxPy hw
    have h3 : (⟨rhe10 (decAddOne (listMaxPy (genuineVersions l))), 1⟩ : Dec).val
        = ((rhe10 (decAddOne (listMaxPy (genuineVersions l))) : ℕ) : ℚ) / 10 := by
      unfold Dec.val
      norm_num
    rw [h3] at hceq
    have h4 : ((rhe10 (decAddOne (listMaxPy (genuineVersions l))) : ℕ) : ℚ) = 10 * w.val := by
      rw [← hceq]
      ring
    rw [h4] at h1
    linarith

/-- Witness for C1: an all-unparseable list selects "1.0", and a list with
versions 2.0 and 1.0 selects the formatted max-plus-one. -/
theorem c1_selected_version_witness :
    (find_existing_distribution (some [⟨3, some "abc"⟩])).2 = "1.0"
    ∧ (find_existing_distribution (some [⟨3, some "2.0"⟩, ⟨4, some "1.0"⟩])).2
        = fmt1 (decAddOne (listMaxPy (genuineVersions [⟨3, some "2.0"⟩, ⟨4, some "1.0"⟩]))) :=
  ⟨(c1_selected_version [⟨3, some "abc"⟩]).1 (by decide),
    (c1_selected_version [⟨3, some "2.0"⟩, ⟨4, some "1.0"⟩]).2.1 (by decide)⟩

/-- C5 counterexample: a DistributionSet whose version "0.0" parses as the
non-negative decimal 0.0 exists, yet `find_existing_distribution` returns
`None` instead of its id, because the scan only replaces `latest_ds` on a
strictly positive version (`version > latest_version` with
`latest_version = 0.0`). -/
theorem c5_counterexample :
    genuineParse (versionStr ⟨7, some "0.0"⟩) = some ⟨0, 1⟩
    ∧ (find_existing_distribution (some [⟨7, some "0.0"⟩])).1 = none := by
  decide

/-- C5 (amended): whenever at least one existing DistributionSet has a version
that parses as a *positive* decimal (`0 < num`), `find_existing_distribution`
returns the id of a DistributionSet whose version parses to the maximum parsed
value. -/
theorem c5_amended_latest_id (l : List DistEntry) (d0 : Dec)
    (hmem : d0 ∈ genuineVersions l) (hpos : 0 < d0.num) :
    ∃ e ∈ l, (find_existing_distribution (some l)).1 = some e.id
      ∧ ∃ dm, genuineParse (versionStr e) = some dm
        ∧ dm.val = (listMaxPy (genuineVersions l)).val := by
  apply find_fst_latest l d0 hmem
  unfold Dec.val
  exact div_pos (by exact_mod_cast hpos) (by positivity)

/-- Witness for C5 (amended) at a one-entry list with version "2.0". -/
theorem c5_amended_latest_id_witness :
    ∃ e ∈ [(⟨7, some "2.0"⟩ : DistEntry)],
      (find_existing_distribution (some [⟨7, some "2.0"⟩])).1 = some e.id
      ∧ ∃ dm, genuineParse (versionStr e) = some dm
        ∧ dm.val = (listMaxPy (genuineVersions [⟨7, some "2.0"⟩])).val :=
  c5_amended_latest_id [⟨7, some "2.0"⟩] ⟨20, 1⟩ (by decide) (by decide)

/-- C6: entries whose version field does not parse as a non-negative decimal
are ignored for version-arithmetic purposes — removing them changes neither
the returned id nor the selected version — and they do not abort the lookup;
in particular, if every entry is unparseable the result is `(None, "1.0")`. -/
theorem c6_unparseable_ignored (l : List DistEntry) :
    find_existing_distribution (some l)
        = find_existing_distribution
            (some (l.filter (fun e => (genuineParse (versionStr e)).isSome)))
    ∧ ((∀ e ∈ l, genuineParse (versionStr e) = none) →
        find_existing_distribution (some l) = (none, "1.0")) := by
  constructor
  · by_cases hg : genuineVersions l = []
    · rw [find_genuine_empty l hg,
        find_genuine_empty _ (by rw [genuineVersions_filter]; exact hg)]
    · obtain ⟨hne, hv⟩ := genuine_ne_imp hg
      have hgf : genuineVersions
          (l.filter (fun e => (genuineParse (versionStr e)).isSome)) ≠ [] := by
        rw [genuineVersions_filter]
        exact hg
      obtain ⟨hnef, hvf⟩ := genuine_ne_imp hgf
      rw [find_some_eval l hne hv, find_some_eval _ hnef hvf]
      have hlat := foldl_distStep_filter_latest l [] [] none decZero
        (by simp [decZero_val])
      have h1 : (l.foldl distStep ([], none, decZero)).2.1
          = ((l.filter (fun e => (genuineParse (versionStr e)).isSome)).foldl distStep
              ([], none, decZero)).2.1 := congrArg Prod.fst hlat
      have h2 : fmt1 (decAddOne (listMaxPy (l.filterMap entryOutcome)))
          = fmt1 (decAddOne (listMaxPy
              ((l.filter (fun e => (genuineParse (versionStr e)).isSome)).filterMap
                entryOutcome))) := by
        rw [outcome_filter_eq_genuine]
        apply fmt1_val_congr
        rw [decAddOne_val, decAddOne_val]
        congr 1
        rw [listMaxPy_val_eq_foldl _ hv, listMaxPy_val_eq_foldl _ hg,
          foldl_max_outcome_genuine l 0 le_rfl]
      rw [h1, h2]
  · intro h
    apply find_genuine_empty
    unfold genuineVersions
    rw [List.filterMap_eq_nil_iff]
    exact h

/-- Witness for C6: a list whose only entry has the unparseable version
"junk". -/
theorem c6_unparseable_ignored_witness :
    find_existing_distribution (some [(⟨3, some "junk"⟩ : DistEntry)]) = (none, "1.0") :=
  (c6_unparseable_ignored [⟨3, some "junk"⟩]).2 (by decide)

/-- C2: In `create_or_update_distribution`, a 409 (version-conflict) response
to the create request triggers exactly one retry whose version is the previous
attempt's version incremented by 1.0 and formatted to one decimal place; if
the retry also returns 409, the operation returns `False` and issues no
further create requests (the trace stays at exactly those two versions). -/
theorem c2_conflict_retry (env : HawkbitEnv) (module_id : Nat) (assign_to_all : Bool)
    (v : String) (rest : List String) (body : List CreatedRec)
    (htr : (create_or_update_distribution env module_id assign_to_all).2 = v :: rest)
    (h409 : env.createResp v = CreateResult.resp 409 body) :
    ∃ d, genuineParse v = some d
      ∧ (create_or_update_distribution env module_id assign_to_all).2
          = [v, fmt1 (decAddOne d)]
      ∧ (∀ body2, env.createResp (fmt1 (decAddOne d)) = CreateResult.resp 409 body2 →
          (create_or_update_distribution env module_id assign_to_all).1
            = PyResult.ok false) := by
  rcases create_or_update_cases env module_id assign_to_all with heq | hnil
  · obtain ⟨rest', hrest'⟩ := createNew_trace_head env.createResp env.targetsServer
      env.assignResp assign_to_all (find_existing_distribution env.lookup).2
    have hveq : (find_existing_distribution env.lookup).2 = v := by
      rw [heq, hrest'] at htr
      exact (List.cons.inj htr).1
    obtain ⟨d, hd⟩ := find_snd_parses env.lookup
    rw [hveq] at hd
    refine ⟨d, hd, ?_, ?_⟩
    · rw [heq, ← hveq]
      simp only [createNewDistribution]
      rw [hveq, h409]
      dsimp only
      rw [if_pos (by decide : ((409 : Nat) == 409) = true)]
      rw [hd]
      dsimp only
      cases env.createResp (fmt1 (decAddOne d)) with
      | netError => rfl
      | resp st2 body2 => rfl
    · intro body2 h4092
      rw [heq]
      simp only [createNewDistribution]
      rw [hveq, h409]
      dsimp only
      rw [if_pos (by decide : ((409 : Nat) == 409) = true)]
      rw [hd]
      dsimp only
      rw [h4092]
      dsimp only
      show afterCreateResponse env.targetsServer env.assignResp 409 body2 assign_to_all
        = PyResult.ok false
      unfold afterCreateResponse
      rw [if_pos (by norm_num)]
  · rw [hnil] at htr
    cases htr

/-- Witness for C2: with every create attempt answering 409, the run issues
exactly the two requests "1.0" and "2.0" and fails. -/
theorem c2_conflict_retry_witness :
    ∃ d, genuineParse "1.0" = some d
      ∧ (create_or_update_distribution envC2 9 false).2 = ["1.0", fmt1 (decAddOne d)]
      ∧ (∀ body2, envC2.createResp (fmt1 (decAddOne d)) = CreateResult.resp 409 body2 →
          (create_or_update_distribution envC2 9 false).1 = PyResult.ok false) :=
  c2_conflict_retry envC2 9 false "1.0" ["2.0"] [] (by decide) (by decide)

/-- C3 counterexample: in `envC3` the single — hence highest-versioned —
DistributionSet of the name has version "0.0" (which parses as the
non-negative decimal 0.0) and already carries module 9, yet
`create_or_update_distribution` issues a create request (for version "1.0")
instead of reusing it, because `find_existing_distribution` never returns the
id of a distribution whose maximum version is 0.0. -/
theorem c3_counterexample :
    genuineParse (versionStr ⟨5, some "0.0"⟩) = some ⟨0, 1⟩
    ∧ envC3.modulesOf 5 = ModulesResp.resp 200 [⟨some 9⟩]
    ∧ (create_or_update_distribution envC3 9 false).2 = ["1.0"] := by
  decide

/-- C3 (amended): if the highest-versioned existing DistributionSet (unique
maximum, with a version parsing as a positive decimal and a nonzero id)
already has the module among its assigned modules, then no create request is
issued and the run is treated as success, proceeding directly to the optional
assignment. -/
theorem c3_amended_reuse (env : HawkbitEnv) (module_id : Nat) (assign_to_all : Bool)
    (l : List DistEntry) (e : DistEntry) (d : Dec) (ms : List ModuleRec)
    (hl : env.lookup = some l)
    (he : e ∈ l)
    (hd : genuineParse (versionStr e) = some d)
    (hpos : 0 < d.num)
    (hmax : ∀ e' ∈ l, e' = e ∨ strictlyBelow d e' = true)
    (hid : e.id ≠ 0)
    (hms : env.modulesOf e.id = ModulesResp.resp 200 ms)
    (hmod : ms.any (fun mo => mo.id? == some module_id) = true) :
    (create_or_update_distribution env module_id assign_to_all).2 = []
    ∧ (create_or_update_distribution env module_id assign_to_all).1
        = PyResult.ok (!assign_to_all
            || (assign_distribution_to_targets env.targetsServer env.assignResp e.id).1) := by
  have hdval : 0 < d.val := by
    unfold Dec.val
    exact div_pos (by exact_mod_cast hpos) (by positivity)
  have hmem : d ∈ genuineVersions l := List.mem_filterMap.mpr ⟨e, he, hd⟩
  obtain ⟨e', he', hfst, dm, hdm, hdmval⟩ := find_fst_latest l d hmem hdval
  have hee : e' = e := by
    rcases hmax e' he' with h | h
    · exact h
    · exfalso
      unfold strictlyBelow at h
      rw [hdm] at h
      have h1 := (decValLt_iff dm d).mp h
      have h2 : d.val ≤ (listMaxPy (genuineVersions l)).val := le_listMaxPy hmem
      rw [hdmval] at h1
      linarith
  subst hee
  have htruthy : pyTruthyOptNat (some e'.id) = true := by
    simp [pyTruthyOptNat, hid]
  have hcond : ((200 : Nat) == 200 && ms.any (fun mo => mo.id? == some module_id)) = true := by
    rw [hmod]
    rfl
  have hrun : create_or_update_distribution env module_id assign_to_all
      = (if (assign_to_all
            && !(assign_distribution_to_targets env.targetsServer env.assignResp e'.id).1)
            = true
         then (PyResult.ok false, []) else (PyResult.ok true, [])) := by
    simp only [create_or_update_distribution]
    rw [hl, hfst]
    rw [if_pos htruthy]
    simp only [Option.getD_some]
    rw [hms]
    dsimp only
    rw [if_pos hcond]
  rw [hrun]
  cases assign_to_all with
  | false => simp
  | true =>
    cases hb : (assign_distribution_to_targets env.targetsServer env.assignResp e'.id).1 with
    | false => simp [hb]
    | true => simp [hb]

/-- Witness for C3 (amended): a single DistributionSet with version "2.0",
id 5 and module 9 attached; with `assign_to_all = false` the run succeeds with
no create request. -/
theorem c3_amended_reuse_witness :
    (create_or_update_distribution envC3w 9 false).2 = []
    ∧ (create_or_update_distribution envC3w 9 false).1
        = PyResult.ok (!false
            || (assign_distribution_to_targets envC3w.targetsServer envC3w.assignResp
                  (⟨5, some "2.0"⟩ : DistEntry).id).1) :=
  c3_amended_reuse envC3w 9 false [⟨5, some "2.0"⟩] ⟨5, some "2.0"⟩ ⟨20, 1⟩ [⟨some 9⟩]
    rfl (by decide) (by decide) (by decide) (by decide) (by decide) (by decide) (by decide)

/-- C7 counterexample: with the distribution lookup failing with a network
error (`envC7.lookup = none`), the reconciliation does not report failure for
that step: the run continues exactly as if the lookup had succeeded with no
results — it issues a create request for version "1.0" and returns overall
success. -/
theorem c7_counterexample :
    (create_or_update_distribution envC7 9 false).1 = PyResult.ok true
    ∧ (create_or_update_distribution envC7 9 false).2 = ["1.0"]
    ∧ create_or_update_distribution envC7 9 false
        = create_or_update_distribution { envC7 with lookup := some [] } 9 false := by
  decide

/-- C7 (amended): a network error during the distribution lookup is caught and
converted into the `(None, "1.0")` return value, so nothing raises past the
orchestrator; however this value is identical to the result of a successful
lookup that found no distributions, so `create_or_update_distribution`
continues with creation as if the lookup had succeeded and found nothing. -/
theorem c7_amended_lookup_error (env : HawkbitEnv) (module_id : Nat) (assign_to_all : Bool)
    (hl : env.lookup = none) :
    find_existing_distribution none = (none, "1.0")
    ∧ find_existing_distribution none = find_existing_distribution (some [])
    ∧ create_or_update_distribution env module_id assign_to_all
        = create_or_update_distribution
            { env with lookup := some [] } module_id assign_to_all := by
  refine ⟨rfl, rfl, ?_⟩
  simp only [create_or_update_distribution, hl]
  rfl

/-- Witness for C7 (amended) at the concrete environment `envC7`. -/
theorem c7_amended_lookup_error_witness :
    find_existing_distribution none = (none, "1.0")
    ∧ find_existing_distribution none = find_existing_distribution (some [])
    ∧ create_or_update_distribution envC7 9 false
        = create_or_update_distribution { envC7 with lookup := some [] } 9 false :=
  c7_amended_lookup_error envC7 9 false rfl

/-- C4 counterexample: one target exists and its assignment request returns
HTTP 204 — a 2xx status, so by the claim's accounting k = 1 ≥ 1 and the
operation should report success — yet `assign_distribution_to_targets` counts
only statuses 200 and 201 and reports failure. -/
theorem c4_counterexample :
    (get_all_targets serverC4).1 = [⟨"t1"⟩]
    ∧ assignRespC4 7 "t1" = AssignResp.resp 204
    ∧ is2xxStatus 204 = true
    ∧ (assign_distribution_to_targets serverC4 assignRespC4 7).1 = false := by
  decide

/-- C4 (amended): with a success counted exactly for HTTP status 200 or 201
(not every 2xx), `assign_distribution_to_targets` attempts the assignment on
every fetched target in order — a failure on one target never prevents the
attempt on a later one — and returns `true` iff the target list is non-empty
and at least one assignment returned 200 or 201; in particular it returns
`false` when no targets exist. -/
theorem c4_amended_assignment (server : TargetsRequest → Except String TargetsPage)
    (assignResp : Nat → String → AssignResp) (dist_id : Nat) :
    (assign_distribution_to_targets server assignResp dist_id).2
        = (get_all_targets server).1.map (fun t => t.controllerId)
    ∧ ((assign_distribution_to_targets server assignResp dist_id).1 = true
        ↔ (get_all_targets server).1 ≠ []
          ∧ 0 < (get_all_targets server).1.countP (fun t =>
              match assignResp dist_id t.controllerId with
              | AssignResp.resp st => st == 200 || st == 201
              | AssignResp.netError => false)) := by
  simp only [assign_distribution_to_targets]
  by_cases hne : (get_all_targets server).1.isEmpty = true
  · rw [if_pos hne]
    have hnil : (get_all_targets server).1 = [] := eq_nil_of_isEmpty hne
    rw [hnil]
    constructor
    · rfl
    · simp
  · rw [if_neg hne]
    have hlist : (get_all_targets server).1 ≠ [] := by
      intro h
      rw [h] at hne
      exact hne rfl
    obtain ⟨h1, h2⟩ := assign_foldl assignResp dist_id (get_all_targets server).1 0 []
    by_cases hz : (((get_all_targets server).1.foldl
        (assignStep assignResp dist_id) (0, [])).1 == 0) = true
    · rw [if_pos hz]
      have hcnt : (get_all_targets server).1.countP (fun t =>
          match assignResp dist_id t.controllerId with
          | AssignResp.resp st => st == 200 || st == 201
          | AssignResp.netError => false) = 0 := by
        have hz' : ((get_all_targets server).1.foldl
            (assignStep assignResp dist_id) (0, [])).1 = 0 := beq_iff_eq.mp hz
        rw [h1] at hz'
        omega
      constructor
      · show ((get_all_targets server).1.foldl (assignStep assignResp dist_id) (0, [])).2
          = (get_all_targets server).1.map (fun t => t.controllerId)
        rw [h2]
        simp
      · constructor
        · intro hfalse
          cases hfalse
        · rintro ⟨_, hpos⟩
          rw [hcnt] at hpos
          exact absurd hpos (lt_irrefl 0)
    · rw [if_neg hz]
      have hcnt : 0 < (get_all_targets server).1.countP (fun t =>
          match assignResp dist_id t.controllerId with
          | AssignResp.resp st => st == 200 || st == 201
          | AssignResp.netError => false) := by
        have hz' : ¬ ((get_all_targets server).1.foldl
            (assignStep assignResp dist_id) (0, [])).1 = 0 := by
          intro hc
          rw [show (((get_all_targets server).1.foldl
              (assignStep assignResp dist_id) (0, [])).1 == 0) = true by
            rw [hc]
            rfl] at hz
          exact hz rfl
        rw [h1] at hz'
        omega
      constructor
      · show ((get_all_targets server).1.foldl (assignStep assignResp dist_id) (0, [])).2
          = (get_all_targets server).1.map (fun t => t.controllerId)
        rw [h2]
        simp
      · constructor
        · intro _
          exact ⟨hlist, hcnt⟩
        · intro _
          rfl

/-- C8: over any `os.walk` traversal sequence of an extracted tree,
`find_raucb_file` returns the path built from the first directory whose file
list contains `rootfs.raucb`; if no directory contains it, the function fails
with the distinguished `notFound` error (`FileNotFoundError`), never with any
other error kind. -/
theorem c8_find_first_raucb (entries : List (String × List String)) :
    find_raucb_file entries
      = match entries.find? (fun pr => decide ("rootfs.raucb" ∈ pr.2)) with
        | some pr => Except.ok (pathJoin pr.1 "rootfs.raucb")
        | none => Except.error FsError.notFound := by
  induction entries with
  | nil => rfl
  | cons pr rest ih =>
    obtain ⟨root, files⟩ := pr
    by_cases hmem : "rootfs.raucb" ∈ files
    · have hfind : List.find? (fun pr : String × List String =>
          decide ("rootfs.raucb" ∈ pr.2)) ((root, files) :: rest) = some (root, files) := by
        simp only [List.find?]
        dsimp only
        simp [decide_eq_true hmem]
      rw [hfind]
      unfold find_raucb_file
      rw [if_pos hmem]
    · have hfind : List.find? (fun pr : String × List String =>
          decide ("rootfs.raucb" ∈ pr.2)) ((root, files) :: rest)
          = List.find? (fun pr : String × List String =>
              decide ("rootfs.raucb" ∈ pr.2)) rest := by
        simp only [List.find?]
        dsimp only
        simp [decide_eq_false hmem]
      rw [hfind]
      unfold find_raucb_file
      rw [if_neg hmem]
      exact ih

/-- C9: for every target id and every server response — transport errors and
HTTP error statuses included — `get_target_status` is a total function into a
record carrying all eight fields; on failure of the main request it returns
the error record, whose `updateStatus` is `"error"` and whose
version/distribution fields are all `"N/A"`. -/
theorem c9_status_error_record (target_id : String) (env : StatusEnv)
    (h : mainRequestFails env.targetResp = true) :
    get_target_status target_id env
      = errorStatus target_id (failMessage env.targetResp) := by
  cases henv : env.targetResp with
  | netError msg =>
    simp only [get_target_status, henv, failMessage]
  | resp st data =>
    have hst : 400 ≤ st ∧ st < 600 := by
      rw [henv] at h
      simp only [mainRequestFails, Bool.and_eq_true, decide_eq_true_eq] at h
      exact h
    simp only [get_target_status, henv, failMessage]
    rw [if_pos hst]

/-- Witness for C9 at a transport-failing environment. -/
theorem c9_status_error_record_witness :
    get_target_status "dev1" envC9 = errorStatus "dev1" (failMessage envC9.targetResp) :=
  c9_status_error_record "dev1" envC9 rfl

/-- C10: `get_all_targets` issues exactly one request, carrying the fixed
`limit` parameter 1000, and never paginates; on a request error it returns the
empty list, which is the same value a caller sees for an empty fleet (the two
situations are indistinguishable downstream). -/
theorem c10_targets_single_request (server : TargetsRequest → Except String TargetsPage) :
    (get_all_targets server).2 = [⟨1000⟩]
    ∧ (∀ msg, server ⟨1000⟩ = Except.error msg → (get_all_targets server).1 = [])
    ∧ (get_all_targets (fun _ => Except.error "network failure")).1
        = (get_all_targets (fun _ => Except.ok ⟨some []⟩)).1 := by
  refine ⟨?_, ?_, rfl⟩
  · simp only [get_all_targets]
    cases server ⟨1000⟩ with
    | ok page => rfl
    | error msg => rfl
  · intro msg h
    simp only [get_all_targets]
    rw [h]

/-- Witness for C10: a server that always fails yields the empty target
list. -/
theorem c10_targets_single_request_witness :
    (get_all_targets (fun _ => Except.error "boom")).1 = [] :=
  (c10_targets_single_request (fun _ => Except.error "boom")).2.1 "boom" rfl
